import Mathlib

set_option autoImplicit false

/-
Shallow embedding of the birpc package: a bidirectional JSON-RPC endpoint.
Machine integers (the uint64 sequence counter) are modelled as Nat with
explicit reduction modulo 2^64 where overflow matters.  The reflective
dispatch machinery is modelled by recording, per handler invocation, the
outcome of each fallible step (argument decoding, argument filling, the
handler call itself), and embedding faithfully how the code builds the
reply message in each branch.
-/

namespace Birpc

/-- Wire-level structured error; the source type `birpc.Error` with its
single field `Msg`. -/
structure Error where
  Msg : String
deriving DecidableEq, Repr

/-- Opaque encoded payload carried in `Args` or `Result`.  The getMethods
reply carries a list of method names; any other encoded value is
abstracted as `raw`. -/
inductive Payload where
  | methods (names : List String)
  | raw (v : Nat)
deriving DecidableEq, Repr

/-- The on-wire message envelope, source type `birpc.Message`.  In the Go
struct `Args`, `Result` and `Error` are nullable (interface / pointer
values); nil is modelled as `none`. -/
structure Message where
  ID : Nat
  Func : String
  Args : Option Payload
  Result : Option Payload
  Error : Option Error
deriving DecidableEq, Repr

/-- One entry of `reflect.Type` method metadata, the inputs inspected by
`getRPCMethodsOfType`: the method name, its package path (empty iff the
method is exported), the parameter count including the receiver, whether
parameter index 2 is a pointer, the result count, and whether result 0 is
the canonical error type. -/
structure Method where
  Name : String
  PkgPath : String
  NumIn : Nat
  In2IsPtr : Bool
  NumOut : Nat
  Out0IsError : Bool
deriving DecidableEq, Repr

/-- A Go map from strings, modelled as an association list whose keys are
kept unique by insert-with-overwrite. -/
abbrev FuncMap (F : Type) := List (String × F)

/-- Go map lookup `m[k]`. -/
def mapLookup {F : Type} (m : FuncMap F) (k : String) : Option F :=
  match m with
  | [] => none
  | (k0, v) :: rest => if k0 = k then some v else mapLookup rest k

/-- Go map assignment `m[k] = v`: overwrite any existing binding. -/
def mapInsert {F : Type} (m : FuncMap F) (k : String) (v : F) : FuncMap F :=
  match m with
  | [] => [(k, v)]
  | (k0, v0) :: rest => if k0 = k then (k, v) :: rest else (k0, v0) :: mapInsert rest k v

/-- Keys of the map, in representation order (Go range order over a map is
unspecified; the embedding fixes the list order). -/
def mapKeys {F : Type} (m : FuncMap F) : List String :=
  m.map Prod.fst

/-- Loop body of the source `getRPCMethodsOfType`: the chain of
`continue` statements that skips unexported methods, methods with fewer
than 3 parameters (receiver included), methods whose parameter 2 is not
a pointer, and methods whose results are not exactly one error value,
embedded as a Boolean filter with the same test order. -/
def methodSuitable (method : Method) : Bool :=
  if method.PkgPath ≠ "" then false
  else if method.NumIn < 3 then false
  else if ¬ method.In2IsPtr then false
  else if ¬ (method.NumOut = 1 ∧ method.Out0IsError) then false
  else true

/-- Source `getRPCMethodsOfType`: collect the methods surviving the
`methodSuitable` filter, in declaration order, and error out when
nothing survives. -/
def getRPCMethodsOfType (typeName : String) (methods : List Method) :
    Except String (List Method) :=
  let fns := methods.filter methodSuitable
  if fns = [] then
    .error ("birpc.RegisterService: type " ++ typeName ++
      " has no exported methods of suitable type")
  else
    .ok fns

/-- The receiver object passed to registration: its unqualified
dereferenced type name, plus its method set. -/
structure Object where
  typeName : String
  methods : List Method
deriving DecidableEq, Repr

/-- Source `Registry.RegisterServiceWithName`: collect the suitable
methods; default the service name to the dereferenced type name when
empty; insert every method under the key SERVICE.METHOD, overwriting. -/
def RegisterServiceWithName (r : FuncMap Method) (object : Object)
    (serviceName : String) : Except String (FuncMap Method) :=
  match getRPCMethodsOfType object.typeName object.methods with
  | .error e => .error e
  | .ok fns =>
    let name := if serviceName = "" then object.typeName else serviceName
    .ok (fns.foldl (fun acc fn => mapInsert acc (name ++ "." ++ fn.Name) fn) r)

/-- Source `Registry.RegisterService`: registration with the default
(type-derived) service name. -/
def RegisterService (r : FuncMap Method) (object : Object) :
    Except String (FuncMap Method) :=
  RegisterServiceWithName r object ""

/-- What `serve_request` does with an inbound request: either write one
message back through the codec, or spawn a handler invocation on a new
task (the `go e.call(fn, msg)` branch, which sends its own reply later). -/
inductive ServeAction where
  | send (m : Message)
  | spawnCall (fname : String) (m : Message)
deriving DecidableEq, Repr

/-- Source `Endpoint.serve_request`: answer getMethods with the list of
registered names; answer an unknown function with the error reply
"No such function."; otherwise dispatch the handler on a new task.  The
source returns the codec write error when the write fails; the embedding
records the message handed to the write. -/
def serve_request (functions : FuncMap Method) (msg : Message) : ServeAction :=
  if msg.Func = "getMethods" then
    .send { msg with Error := none, Func := "", Args := none,
                     Result := some (.methods (mapKeys functions)) }
  else
    match mapLookup functions msg.Func with
    | none =>
      .send { msg with Error := some ⟨"No such function."⟩, Func := "",
                       Args := none, Result := none }
    | some _ => .spawnCall msg.Func msg

/-- Outcome of the fallible steps inside `Endpoint.call`, in source
order: `UnmarshalArgs` fails, `FillArgs` fails, the handler returns a
non-nil error, or the handler succeeds producing a reply value. -/
inductive CallOutcome where
  | decodeArgsError (e : String)
  | fillError (e : String)
  | handlerError (e : String)
  | success (reply : Payload)
deriving DecidableEq, Repr

/-- Source `Endpoint.call`, reply construction: every failure branch
sends the request message back with `Error` set and `Func`, `Args`,
`Result` cleared; the success branch sends it back with `Result` set to
the (always non-nil) freshly allocated reply value and `Error` nil. -/
def call_response (msg : Message) (oc : CallOutcome) : Message :=
  match oc with
  | .decodeArgsError e =>
    { msg with Error := some ⟨e⟩, Func := "", Args := none, Result := none }
  | .fillError e =>
    { msg with Error := some ⟨e⟩, Func := "", Args := none, Result := none }
  | .handlerError e =>
    { msg with Error := some ⟨e⟩, Func := "", Args := none, Result := none }
  | .success reply =>
    { msg with Error := none, Func := "", Args := none, Result := some reply }

/-- The outbound-side record behind `*rpc.Call`: a numeric identity
standing for the Go pointer identity, whether the caller supplied a
reply destination (`call.Reply != nil`), the recorded error
(`call.Error`), and whether the completion notifier has been signalled
(a value was placed on `call.Done`). -/
structure Call where
  id : Nat
  hasReply : Bool
  CallError : Option String
  done : Bool
deriving DecidableEq, Repr

/-- The pending table `Endpoint.client.pending`: a Go map from uint64
sequence IDs to calls, modelled as an association list with unique
keys. -/
abbrev Pending := List (Nat × Call)

/-- Go map lookup `pending[id]`. -/
def pendingLookup (st : Pending) (id : Nat) : Option Call :=
  match st with
  | [] => none
  | (k, c) :: rest => if k = id then some c else pendingLookup rest id

/-- Go `delete(pending, id)`: remove the binding when present, no-op
otherwise. -/
def pendingErase (st : Pending) (id : Nat) : Pending :=
  match st with
  | [] => []
  | (k, c) :: rest => if k = id then rest else (k, c) :: pendingErase rest id

/-- Go map assignment `pending[id] = call`. -/
def pendingInsert (st : Pending) (id : Nat) (c : Call) : Pending :=
  (id, c) :: pendingErase st id

/-- Source `Endpoint.serve_response`: look up and delete the pending
entry for `msg.ID`; when absent, fail with the unknown-seq diagnostic.
Otherwise record the server error, or (when the caller has a reply
destination) decode the result — `unmarshalErr` is the outcome
`Codec.UnmarshalResult` would produce — and finally signal the
completion notifier with a non-blocking send (`doneFree` is whether the
channel has room; the signal is dropped when it is full).  Returns the
updated table and the completed call record. -/
def serve_response (st : Pending) (unmarshalErr : Option String)
    (doneFree : Bool) (msg : Message) : Except String (Pending × Call) :=
  match pendingLookup st msg.ID with
  | none => .error ("Server responded with unknown seq " ++ toString msg.ID)
  | some call =>
    let st1 := pendingErase st msg.ID
    let call1 :=
      match msg.Error with
      | none =>
        if call.hasReply then
          match unmarshalErr with
          | some e => { call with CallError := some ("Unmarshaling result: " ++ e) }
          | none => call
        else call
      | some err => { call with CallError := some err.Msg }
    let call2 := if doneFree then { call1 with done := true } else call1
    .ok (st1, call2)

/-- One inbound message together with the environment outcomes its
processing may consult: the result-decode outcome and whether the done
channel has room. -/
structure InboundStep where
  msg : Message
  unmarshalErr : Option String
  doneFree : Bool

/-- The reader loop inside `Endpoint.Serve`: read messages in order,
classify on `Func` (non-empty = request, empty = response), and stop at
the first error.  Codec writes are assumed to succeed, so request
service never errors; a `serve_response` error ends the loop
immediately, leaving the remaining messages unprocessed. -/
def readerLoop (functions : FuncMap Method) :
    Pending → List InboundStep → Except String Pending
  | pending, [] => .ok pending
  | pending, step :: rest =>
    if step.msg.Func ≠ "" then
      readerLoop functions pending rest
    else
      match serve_response pending step.unmarshalErr step.doneFree step.msg with
      | .error e => .error e
      | .ok (pending1, _) => readerLoop functions pending1 rest

/-- Whether a processing step ended in an error that terminates the
reader loop. -/
def isFatal {A : Type} (r : Except String A) : Bool :=
  match r with
  | .error _ => true
  | .ok _ => false

/-- Outcome of `Endpoint.Serve` as seen through the read path: `Serve`
selects on the reader goroutine error channel and returns the error the
reader loop produced (when the heartbeat has not failed first). -/
def Serve_readOutcome (functions : FuncMap Method) (pending : Pending)
    (steps : List InboundStep) : Option String :=
  match readerLoop functions pending steps with
  | .error e => some e
  | .ok _ => none

/-- The client half of the endpoint guarded by `client.mutex`: the
uint64 sequence counter and the pending table. -/
structure ClientState where
  seq : Nat
  pending : Pending
deriving DecidableEq, Repr

/-- Width of the Go uint64 sequence counter. -/
def U64 : Nat := 2 ^ 64

/-- Source `Endpoint.Go`, the part under `client.mutex`: increment the
uint64 sequence counter (wrapping modulo 2^64), stamp the outbound
message with it, and install the pending entry — all before the message
is handed to the writer task.  Returns the post-install client state
and the message the spawned `go e.send(msg)` will write. -/
def Go (st : ClientState) (call : Call) (func : String) (args : Option Payload) :
    ClientState × Message :=
  let seq1 := (st.seq + 1) % U64
  let msg : Message :=
    { ID := seq1, Func := func, Args := args, Result := none, Error := none }
  ({ seq := seq1, pending := pendingInsert st.pending seq1 call }, msg)

/-- The body of the writer task spawned by `Go`: it runs
`e.send(msg)`, i.e. `Codec.WriteMessage`, and discards the result.  On
neither outcome does it touch the client state or the call record: no
error is recorded, no pending entry is removed, the done channel is not
signalled. -/
def go_sendTask (writeOk : Bool) (st : ClientState) (call : Call) :
    ClientState × Call :=
  (st, call)

/-- Repeated write attempts on a dead (or live) transport, each running
the spawned writer body. -/
def runWriteAttempts (st : ClientState) (call : Call) (attempts : List Bool) :
    ClientState × Call :=
  attempts.foldl (fun s ok => go_sendTask ok s.1 s.2) (st, call)

/-- Whether `Endpoint.Call` has returned: `Call` blocks receiving on the
done channel, so it returns exactly when the call has been signalled. -/
def Call_returned (call : Call) : Bool :=
  call.done

/-- The range-and-break loop inside the timeout branch of
`CallWithDeadline`: drop the first binding whose value is the given
call. -/
def eraseFirstCall : Pending → Nat → Pending
  | [], _ => []
  | (k, c) :: rest, cid =>
    if c.id = cid then rest else (k, c) :: eraseFirstCall rest cid

/-- Source `Endpoint.CallWithDeadline`, timeout branch: under
`client.mutex`, scan the pending table for the entry holding this very
call (pointer identity), delete the first such entry, and return the
timeout error string. -/
def CallWithDeadline_timeout (st : Pending) (call : Call) : Pending × String :=
  (eraseFirstCall st call.id, "birpc: call timeout, dont resend")

/-- The heartbeat period `pingPeriod` in seconds. -/
def pingPeriodSeconds : Int := 10

/-- Source `NewEndpoint`, the liveness field: `lastPongTimestamp` is set
to the wall-clock time at which the endpoint is created. -/
def NewEndpoint_lastPongTimestamp (createTime : Int) : Int :=
  createTime

/-- Modelled from the spec: the spec states that the initial value of
lastPongTime is the moment `Serve` started; `Serve` itself never writes
`lastPongTimestamp` in the source, so this definition exists only to be
compared against `NewEndpoint_lastPongTimestamp`. -/
def specInit_lastPongTimestamp (serveStart : Int) : Int :=
  serveStart

/-- Wall-clock time of the n-th tick (counting from 0) of the heartbeat
ticker started by `Serve`: the ticker fires every `pingPeriod` seconds
after the heartbeat task starts. -/
def heartbeatTickTime (serveStart : Int) (n : Nat) : Int :=
  serveStart + pingPeriodSeconds * ((n : Int) + 1)

/-- The body run at each heartbeat tick: fail with the timeout message
when the current time is past `lastPongTimestamp` plus two periods;
otherwise ping the peer, failing with the closed message when the ping
write errors; otherwise keep going. -/
def heartbeatCheck (lastPong now : Int) (pingOk : Bool) : Option String :=
  if lastPong + 2 * pingPeriodSeconds < now then
    some "remote connection is timeout."
  else if pingOk then
    none
  else
    some "remote connection is closed."

/-- The qualification rule as the claim words it: exported, at least two
declared parameters beyond the receiver (3 including it), second such
parameter a pointer, and exactly one result of the canonical error
type. -/
def suitableMethodSpec (m : Method) : Prop :=
  m.PkgPath = "" ∧ 3 ≤ m.NumIn ∧ m.In2IsPtr = true ∧ m.NumOut = 1 ∧
    m.Out0IsError = true

/-- Exactly one of `Result` and `Error` is set on a message (a set but
zero-valued `Result` still counts as set, hence `isSome`). -/
def exactlyOneOfResultError (m : Message) : Prop :=
  (m.Result.isSome = true ∧ m.Error = none) ∨
    (m.Result = none ∧ m.Error.isSome = true)

/-! Helper lemmas about the map models. -/

theorem mapLookup_mapInsert {F : Type} (r : FuncMap F) (k k0 : String) (v : F) :
    mapLookup (mapInsert r k v) k0 = if k0 = k then some v else mapLookup r k0 := by
  induction r with
  | nil =>
    simp only [mapInsert, mapLookup]
    split_ifs <;> simp_all
  | cons p rest ih =>
    obtain ⟨k1, v1⟩ := p
    simp only [mapInsert]
    by_cases h1 : k1 = k
    · subst h1
      simp only [mapLookup]
      by_cases h : k1 = k0
      · rw [if_pos h, if_pos h.symm]
      · rw [if_neg h, if_neg (fun hh => h hh.symm), if_neg h]
    · simp only [if_neg h1, mapLookup, ih]
      split_ifs <;> simp_all

theorem pendingLookup_eq_none_of_not_mem (st : Pending) (n : Nat)
    (h : n ∉ st.map Prod.fst) : pendingLookup st n = none := by
  induction st with
  | nil => rfl
  | cons p rest ih =>
    obtain ⟨k, c⟩ := p
    simp only [List.map_cons, List.mem_cons] at h
    push_neg at h
    simp only [pendingLookup]
    rw [if_neg fun hh => h.1 hh.symm]
    exact ih h.2

theorem pendingErase_of_not_mem (st : Pending) (n : Nat)
    (h : n ∉ st.map Prod.fst) : pendingErase st n = st := by
  induction st with
  | nil => rfl
  | cons p rest ih =>
    obtain ⟨k, c⟩ := p
    simp only [List.map_cons, List.mem_cons] at h
    push_neg at h
    simp only [pendingErase]
    rw [if_neg fun hh => h.1 hh.symm]
    rw [ih h.2]

theorem pendingLookup_pendingInsert_self (st : Pending) (n : Nat) (c : Call) :
    pendingLookup (pendingInsert st n c) n = some c := by
  simp [pendingInsert, pendingLookup]

theorem runWriteAttempts_eq (st : ClientState) (c : Call) (attempts : List Bool) :
    runWriteAttempts st c attempts = (st, c) := by
  induction attempts with
  | nil => rfl
  | cons a rest ih => exact ih

/-- Claim C1: the spec demands that no response be sent for an inbound
request whose ID is 0.  The code, however, never inspects the ID:
evaluating `serve_request` at the failing input — ID 0 with an
unregistered method, and ID 0 with getMethods — produces a send action
in both cases, i.e. a response is written back for an ID-0 request,
contradicting the package comment that seq-0 messages are untagged and
will not be responded to. -/
theorem C1_id_zero_still_answered :
    serve_request []
        { ID := 0, Func := "Does.NotExist", Args := none, Result := none,
          Error := none } =
      .send { ID := 0, Func := "", Args := none, Result := none,
              Error := some ⟨"No such function."⟩ } ∧
    serve_request []
        { ID := 0, Func := "getMethods", Args := none, Result := none,
          Error := none } =
      .send { ID := 0, Func := "", Args := none,
              Result := some (.methods []), Error := none } := by
  constructor <;> rfl

/-- Claim C5: an inbound request whose Func is non-empty, not
getMethods, and not registered is answered with a response carrying the
same ID, empty Func, nil Result and the error message
"No such function.", and no handler is dispatched (the action is a
send, not a spawned call). -/
theorem C5_unknown_method (functions : FuncMap Method) (msg : Message)
    (hne : msg.Func ≠ "") (hgm : msg.Func ≠ "getMethods")
    (hlk : mapLookup functions msg.Func = none) :
    serve_request functions msg =
      .send { ID := msg.ID, Func := "", Args := none, Result := none,
              Error := some ⟨"No such function."⟩ } := by
  unfold serve_request
  rw [if_neg hgm, hlk]

/-- Claim C6: an inbound request for getMethods is answered without
dispatching to user code by a response carrying the ID of the request, empty
Func, no Error, and as Result the list of all registered fully
qualified method names — for every registry, the empty one included, in
which case the list is empty. -/
theorem C6_getMethods (functions : FuncMap Method) (msg : Message)
    (hgm : msg.Func = "getMethods") :
    serve_request functions msg =
      .send { ID := msg.ID, Func := "", Args := none,
              Result := some (.methods (mapKeys functions)), Error := none } := by
  unfold serve_request
  rw [if_pos hgm]

/-- Claim C8: every response the endpoint sends — the getMethods reply
and the unknown-method reply from `serve_request`, and each of the four
reply shapes of `Endpoint.call` (args-decode failure, arg-filler
failure, handler error, handler success) — has exactly one of Result or
Error set. -/
theorem C8_responses_exclusive (functions : FuncMap Method) (msg m : Message)
    (oc : CallOutcome) :
    (serve_request functions msg = .send m → exactlyOneOfResultError m) ∧
    exactlyOneOfResultError (call_response msg oc) := by
  constructor
  · intro h
    unfold serve_request at h
    by_cases hgm : msg.Func = "getMethods"
    · rw [if_pos hgm] at h
      cases h
      left
      exact ⟨rfl, rfl⟩
    · rw [if_neg hgm] at h
      cases hlk : mapLookup functions msg.Func with
      | none =>
        rw [hlk] at h
        cases h
        right
        exact ⟨rfl, rfl⟩
      | some fn =>
        rw [hlk] at h
        simp at h
  · cases oc with
    | decodeArgsError e => right; exact ⟨rfl, rfl⟩
    | fillError e => right; exact ⟨rfl, rfl⟩
    | handlerError e => right; exact ⟨rfl, rfl⟩
    | success reply => left; exact ⟨rfl, rfl⟩

/-- Witness for C5 at a concrete registry and request. -/
theorem C5_unknown_method_witness :
    serve_request [("Greeting.Greet", (⟨"Greet", "", 3, true, 1, true⟩ : Method))]
        { ID := 7, Func := "Does.NotExist", Args := some (.raw 1), Result := none,
          Error := none } =
      .send { ID := 7, Func := "", Args := none, Result := none,
              Error := some ⟨"No such function."⟩ } :=
  C5_unknown_method _ _ (by decide) (by decide) (by decide)

/-- Witness for C6 at the empty registry: a reply is still sent and its
Result is the empty list. -/
theorem C6_getMethods_witness :
    serve_request []
        { ID := 3, Func := "getMethods", Args := none, Result := none,
          Error := none } =
      .send { ID := 3, Func := "", Args := none, Result := some (.methods []),
              Error := none } :=
  C6_getMethods [] _ rfl

/-- Witness for C8 at a concrete getMethods reply and a concrete
handler-error reply. -/
theorem C8_responses_exclusive_witness :
    exactlyOneOfResultError
      { ID := 3, Func := "", Args := none, Result := some (.methods []),
        Error := none } ∧
    exactlyOneOfResultError
      (call_response
        { ID := 4, Func := "A.B", Args := none, Result := none, Error := none }
        (.handlerError "boom")) :=
  ⟨(C8_responses_exclusive []
      { ID := 3, Func := "getMethods", Args := none, Result := none, Error := none }
      { ID := 3, Func := "", Args := none, Result := some (.methods []),
        Error := none }
      (.success (.raw 0))).1 rfl,
   (C8_responses_exclusive []
      { ID := 4, Func := "A.B", Args := none, Result := none, Error := none }
      { ID := 4, Func := "A.B", Args := none, Result := none, Error := none }
      (.handlerError "boom")).2⟩

theorem eraseFirstCall_lookup_none (st : Pending) (n : Nat) (c : Call)
    (hmem : (n, c) ∈ st)
    (huniq : ∀ k c0, (k, c0) ∈ st → c0.id = c.id → k = n ∧ c0 = c)
    (hnodup : (st.map Prod.fst).Nodup) :
    pendingLookup (eraseFirstCall st c.id) n = none := by
  induction st with
  | nil => cases hmem
  | cons p rest ih =>
    obtain ⟨k, c0⟩ := p
    simp only [List.map_cons, List.nodup_cons] at hnodup
    by_cases h : c0.id = c.id
    · obtain ⟨hk, hc⟩ := huniq k c0 (List.mem_cons_self _ _) h
      simp only [eraseFirstCall, if_pos h]
      rw [← hk]
      exact pendingLookup_eq_none_of_not_mem rest k hnodup.1
    · have hmem1 : (n, c) ∈ rest := by
        rcases List.mem_cons.mp hmem with h1 | h1
        · injection h1 with hk hc
          subst hc
          exact absurd rfl h
        · exact h1
      simp only [eraseFirstCall, if_neg h, pendingLookup]
      have hkn : ¬ k = n := by
        intro hkn
        subst hkn
        exact hnodup.1 (List.mem_map.mpr ⟨(k, c), hmem1, rfl⟩)
      rw [if_neg hkn]
      exact ih hmem1
        (fun k1 c1 hm hid => huniq k1 c1 (List.mem_cons_of_mem _ hm) hid)
        hnodup.2

/-- Claim C2, counterexample to the claim as stated: after a deadline
fires, the timeout branch does return the stated error string and does
remove the pending entry, but a response arriving for that ID
afterwards is not silently dropped: `serve_response` fails with the
unknown-seq diagnostic, the step is fatal, and `Serve` returns the
diagnostic — the late response very much has a further effect on the
endpoint. -/
theorem C2_counterexample :
    CallWithDeadline_timeout [(1, ⟨5, true, none, false⟩)] ⟨5, true, none, false⟩ =
      ([], "birpc: call timeout, dont resend") ∧
    serve_response [] none true
        { ID := 1, Func := "", Args := none, Result := some (.raw 0),
          Error := none } =
      .error "Server responded with unknown seq 1" ∧
    isFatal (serve_response [] none true
        { ID := 1, Func := "", Args := none, Result := some (.raw 0),
          Error := none }) = true ∧
    Serve_readOutcome [] []
        [⟨{ ID := 1, Func := "", Args := none, Result := some (.raw 0),
            Error := none }, none, true⟩] =
      some "Server responded with unknown seq 1" := by
  refine ⟨rfl, ?_, rfl, ?_⟩ <;> rfl

/-- Claim C2 as amended: when the deadline of a `CallWithDeadline`
fires, the caller gets the error "birpc: call timeout, dont resend" and
the pending entry holding the call is removed from the pending table; a
response that arrives for that ID afterwards finds no pending entry, so
`serve_response` fails with the unknown-seq diagnostic (terminating the
reader loop) rather than being silently dropped. -/
theorem C2_timeout_removes_entry (st : Pending) (n : Nat) (c : Call)
    (msg : Message) (ue : Option String) (df : Bool)
    (hmem : (n, c) ∈ st)
    (huniq : ∀ k c0, (k, c0) ∈ st → c0.id = c.id → k = n ∧ c0 = c)
    (hnodup : (st.map Prod.fst).Nodup)
    (hid : msg.ID = n) (hfunc : msg.Func = "") :
    (CallWithDeadline_timeout st c).2 = "birpc: call timeout, dont resend" ∧
    pendingLookup (CallWithDeadline_timeout st c).1 n = none ∧
    serve_response (CallWithDeadline_timeout st c).1 ue df msg =
      .error ("Server responded with unknown seq " ++ toString n) := by
  have h1 : pendingLookup (CallWithDeadline_timeout st c).1 n = none :=
    eraseFirstCall_lookup_none st n c hmem huniq hnodup
  refine ⟨rfl, h1, ?_⟩
  simp [serve_response, hid, h1]

/-- Witness for the amended C2 at a concrete one-call pending table. -/
theorem C2_timeout_removes_entry_witness :
    (CallWithDeadline_timeout [(1, ⟨5, true, none, false⟩)]
        ⟨5, true, none, false⟩).2 = "birpc: call timeout, dont resend" ∧
    pendingLookup (CallWithDeadline_timeout [(1, ⟨5, true, none, false⟩)]
        ⟨5, true, none, false⟩).1 1 = none ∧
    serve_response (CallWithDeadline_timeout [(1, ⟨5, true, none, false⟩)]
        ⟨5, true, none, false⟩).1 none true
        { ID := 1, Func := "", Args := none, Result := some (.raw 0),
          Error := none } =
      .error ("Server responded with unknown seq " ++ toString (1 : Nat)) :=
  C2_timeout_removes_entry [(1, ⟨5, true, none, false⟩)] 1 ⟨5, true, none, false⟩
    { ID := 1, Func := "", Args := none, Result := some (.raw 0), Error := none }
    none true (by decide)
    (by
      intro k c0 hm hid0
      have h := List.mem_singleton.mp hm
      injection h with h1 h2
      exact ⟨h1, h2⟩)
    (by decide) rfl rfl

/-- Claim C3: an inbound response (empty Func) whose ID matches no
pending entry makes `serve_response` return the unknown-seq diagnostic;
the error is fatal: the reader loop stops there, whatever messages
remain, and `Serve` returns that diagnostic. -/
theorem C3_unknown_seq_fatal (functions : FuncMap Method) (pending : Pending)
    (step : InboundStep) (rest : List InboundStep)
    (hfunc : step.msg.Func = "")
    (hid : pendingLookup pending step.msg.ID = none) :
    serve_response pending step.unmarshalErr step.doneFree step.msg =
      .error ("Server responded with unknown seq " ++ toString step.msg.ID) ∧
    readerLoop functions pending (step :: rest) =
      .error ("Server responded with unknown seq " ++ toString step.msg.ID) ∧
    Serve_readOutcome functions pending (step :: rest) =
      some ("Server responded with unknown seq " ++ toString step.msg.ID) := by
  have h1 : serve_response pending step.unmarshalErr step.doneFree step.msg =
      .error ("Server responded with unknown seq " ++ toString step.msg.ID) := by
    simp [serve_response, hid]
  have h2 : readerLoop functions pending (step :: rest) =
      .error ("Server responded with unknown seq " ++ toString step.msg.ID) := by
    simp [readerLoop, hfunc, h1]
  exact ⟨h1, h2, by simp [Serve_readOutcome, h2]⟩

/-- Witness for C3 at a concrete pending table and a response with an
unknown ID, with further messages behind it that are never reached. -/
theorem C3_unknown_seq_fatal_witness :
    serve_response [(2, ⟨1, true, none, false⟩)] none true
        { ID := 9, Func := "", Args := none, Result := some (.raw 0),
          Error := none } =
      .error ("Server responded with unknown seq " ++ toString (9 : Nat)) ∧
    readerLoop [] [(2, ⟨1, true, none, false⟩)]
        [⟨{ ID := 9, Func := "", Args := none, Result := some (.raw 0),
            Error := none }, none, true⟩,
         ⟨{ ID := 2, Func := "", Args := none, Result := some (.raw 0),
            Error := none }, none, true⟩] =
      .error ("Server responded with unknown seq " ++ toString (9 : Nat)) ∧
    Serve_readOutcome [] [(2, ⟨1, true, none, false⟩)]
        [⟨{ ID := 9, Func := "", Args := none, Result := some (.raw 0),
            Error := none }, none, true⟩,
         ⟨{ ID := 2, Func := "", Args := none, Result := some (.raw 0),
            Error := none }, none, true⟩] =
      some ("Server responded with unknown seq " ++ toString (9 : Nat)) :=
  C3_unknown_seq_fatal [] [(2, ⟨1, true, none, false⟩)]
    ⟨{ ID := 9, Func := "", Args := none, Result := some (.raw 0),
       Error := none }, none, true⟩
    [⟨{ ID := 2, Func := "", Args := none, Result := some (.raw 0),
        Error := none }, none, true⟩]
    rfl (by decide)

/-- Claim C4, counterexample to the claim as stated: the code sets
`lastPongTimestamp` in `NewEndpoint`, not when `Serve` starts.  With the
endpoint created at time 0 and `Serve` started at time 100, the first
heartbeat tick (time 110) already fails with the timeout message under
the initial value the code uses, while under the initial value the claim
states (the
moment `Serve` started) the same tick would pass. -/
theorem C4_counterexample :
    heartbeatCheck (NewEndpoint_lastPongTimestamp 0) (heartbeatTickTime 100 0) true =
      some "remote connection is timeout." ∧
    heartbeatCheck (specInit_lastPongTimestamp 100) (heartbeatTickTime 100 0) true =
      none := by
  constructor <;> decide

/-- Claim C4 as amended: the heartbeat task ticks every 10 seconds; a
tick fails with "remote connection is timeout." exactly when the
current time exceeds `lastPongTimestamp` plus 2 periods, and otherwise
pings, failing with "remote connection is closed." exactly when the
ping write errors; the initial value of `lastPongTimestamp` is the
moment `NewEndpoint` created the endpoint (not the moment `Serve`
started), so with `Serve` started at creation time a peer that never
pongs fails precisely at the ticks past the 2-period deadline, the
first being the third tick. -/
theorem C4_heartbeat (t0 lastPong now : Int) (n : Nat) (pingOk : Bool) :
    heartbeatTickTime t0 (n + 1) - heartbeatTickTime t0 n = 10 ∧
    (heartbeatCheck lastPong now pingOk = some "remote connection is timeout." ↔
      lastPong + 2 * 10 < now) ∧
    (heartbeatCheck lastPong now pingOk = some "remote connection is closed." ↔
      ¬ lastPong + 2 * 10 < now ∧ pingOk = false) ∧
    NewEndpoint_lastPongTimestamp t0 = t0 ∧
    (heartbeatCheck (NewEndpoint_lastPongTimestamp t0) (heartbeatTickTime t0 n) true =
        some "remote connection is timeout." ↔ 2 ≤ n) := by
  have htimeout : ∀ lp nw : Int, ∀ pk : Bool,
      (heartbeatCheck lp nw pk = some "remote connection is timeout." ↔
        lp + 2 * 10 < nw) := by
    intro lp nw pk
    unfold heartbeatCheck pingPeriodSeconds
    by_cases h : lp + 2 * 10 < nw
    · rw [if_pos h]
      exact iff_of_true rfl h
    · rw [if_neg h]
      refine iff_of_false ?_ h
      cases pk <;> intro hc <;> simp at hc
  refine ⟨?_, htimeout lastPong now pingOk, ?_, rfl, ?_⟩
  · simp only [heartbeatTickTime, pingPeriodSeconds]
    push_cast
    ring
  · unfold heartbeatCheck pingPeriodSeconds
    by_cases h : lastPong + 2 * 10 < now
    · rw [if_pos h]
      refine iff_of_false ?_ ?_
      · intro hc
        simp at hc
      · rintro ⟨h1, _⟩
        exact h1 h
    · rw [if_neg h]
      cases pingOk with
      | false => exact iff_of_true (by simp) ⟨h, rfl⟩
      | true =>
        refine iff_of_false ?_ ?_
        · intro hc
          simp at hc
        · rintro ⟨_, h2⟩
          simp at h2
  · rw [htimeout]
    simp only [NewEndpoint_lastPongTimestamp, heartbeatTickTime, pingPeriodSeconds]
    omega

/-- Claim C7: `Go` hands out the next sequence ID under the
pending-table lock: the new ID is the old counter plus one (so IDs are
strictly increasing across successive calls, the post-state counter
equalling the new ID), the ID is non-zero, it was not previously
pending, the pending entry is installed in the state that is in effect
before the message is handed to the writer task, and key uniqueness of
the pending table is preserved — all provided the uint64 counter does
not wrap and all pending keys are bounded by the counter, which holds
inductively from the empty table. -/
theorem C7_go_ids (st : ClientState) (c : Call) (f : String) (a : Option Payload)
    (hseq : st.seq + 1 < U64)
    (hkeys : ∀ k c0, (k, c0) ∈ st.pending → k ≤ st.seq) :
    (Go st c f a).2.ID = st.seq + 1 ∧
    st.seq < (Go st c f a).2.ID ∧
    (Go st c f a).2.ID ≠ 0 ∧
    (Go st c f a).1.seq = (Go st c f a).2.ID ∧
    pendingLookup st.pending (Go st c f a).2.ID = none ∧
    pendingLookup (Go st c f a).1.pending (Go st c f a).2.ID = some c ∧
    ((st.pending.map Prod.fst).Nodup →
      ((Go st c f a).1.pending.map Prod.fst).Nodup) := by
  have hmod : (st.seq + 1) % U64 = st.seq + 1 := Nat.mod_eq_of_lt hseq
  have hid : (Go st c f a).2.ID = st.seq + 1 := by
    simp [Go, hmod]
  have hfresh : (st.seq + 1) ∉ st.pending.map Prod.fst := by
    intro hm
    obtain ⟨⟨k, c0⟩, hmem, hk⟩ := List.mem_map.mp hm
    have hle := hkeys k c0 hmem
    simp only at hk
    omega
  have herase : pendingErase st.pending (st.seq + 1) = st.pending :=
    pendingErase_of_not_mem _ _ hfresh
  refine ⟨hid, ?_, ?_, ?_, ?_, ?_, ?_⟩
  · rw [hid]; omega
  · rw [hid]; omega
  · simp [Go]
  · rw [hid]
    exact pendingLookup_eq_none_of_not_mem _ _ hfresh
  · simp only [Go]
    exact pendingLookup_pendingInsert_self _ _ _
  · intro hnd
    simp only [Go, pendingInsert, hmod, herase, List.map_cons]
    exact List.nodup_cons.mpr ⟨hfresh, hnd⟩

/-- Witness for C7 at a concrete client state holding two pending
calls. -/
theorem C7_go_ids_witness :
    (Go ⟨3, [(2, ⟨1, true, none, false⟩), (3, ⟨2, true, none, false⟩)]⟩
        ⟨7, true, none, false⟩ "Svc.M" none).2.ID = 3 + 1 ∧
    3 < (Go ⟨3, [(2, ⟨1, true, none, false⟩), (3, ⟨2, true, none, false⟩)]⟩
        ⟨7, true, none, false⟩ "Svc.M" none).2.ID ∧
    (Go ⟨3, [(2, ⟨1, true, none, false⟩), (3, ⟨2, true, none, false⟩)]⟩
        ⟨7, true, none, false⟩ "Svc.M" none).2.ID ≠ 0 ∧
    (Go ⟨3, [(2, ⟨1, true, none, false⟩), (3, ⟨2, true, none, false⟩)]⟩
        ⟨7, true, none, false⟩ "Svc.M" none).1.seq =
      (Go ⟨3, [(2, ⟨1, true, none, false⟩), (3, ⟨2, true, none, false⟩)]⟩
        ⟨7, true, none, false⟩ "Svc.M" none).2.ID ∧
    pendingLookup [(2, ⟨1, true, none, false⟩), (3, ⟨2, true, none, false⟩)]
      (Go ⟨3, [(2, ⟨1, true, none, false⟩), (3, ⟨2, true, none, false⟩)]⟩
        ⟨7, true, none, false⟩ "Svc.M" none).2.ID = none ∧
    pendingLookup
      (Go ⟨3, [(2, ⟨1, true, none, false⟩), (3, ⟨2, true, none, false⟩)]⟩
        ⟨7, true, none, false⟩ "Svc.M" none).1.pending
      (Go ⟨3, [(2, ⟨1, true, none, false⟩), (3, ⟨2, true, none, false⟩)]⟩
        ⟨7, true, none, false⟩ "Svc.M" none).2.ID = some ⟨7, true, none, false⟩ ∧
    (([(2, (⟨1, true, none, false⟩ : Call)), (3, ⟨2, true, none, false⟩)].map
        Prod.fst).Nodup →
      ((Go ⟨3, [(2, ⟨1, true, none, false⟩), (3, ⟨2, true, none, false⟩)]⟩
        ⟨7, true, none, false⟩ "Svc.M" none).1.pending.map Prod.fst).Nodup) :=
  C7_go_ids ⟨3, [(2, ⟨1, true, none, false⟩), (3, ⟨2, true, none, false⟩)]⟩
    ⟨7, true, none, false⟩ "Svc.M" none
    (by decide)
    (by
      intro k c0 hm
      rcases List.mem_cons.mp hm with h | h
      · injection h with h1 h2
        subst h1
        decide
      · have h3 := List.mem_singleton.mp h
        injection h3 with h1 h2
        subst h1
        decide)

theorem methodSuitable_iff (m : Method) :
    methodSuitable m = true ↔ suitableMethodSpec m := by
  unfold methodSuitable suitableMethodSpec
  by_cases h1 : m.PkgPath ≠ ""
  · rw [if_pos h1]
    refine iff_of_false (by simp) ?_
    rintro ⟨hp, _⟩
    exact h1 hp
  · rw [if_neg h1]
    push_neg at h1
    by_cases h2 : m.NumIn < 3
    · rw [if_pos h2]
      refine iff_of_false (by simp) ?_
      rintro ⟨_, hn, _⟩
      omega
    · rw [if_neg h2]
      by_cases h3 : ¬ m.In2IsPtr
      · rw [if_pos h3]
        refine iff_of_false (by simp) ?_
        rintro ⟨_, _, hp, _⟩
        exact h3 hp
      · rw [if_neg h3]
        push_neg at h3
        by_cases h4 : ¬ (m.NumOut = 1 ∧ m.Out0IsError)
        · rw [if_pos h4]
          refine iff_of_false (by simp) ?_
          rintro ⟨_, _, _, ho, he⟩
          exact h4 ⟨ho, he⟩
        · rw [if_neg h4]
          push_neg at h4
          exact iff_of_true rfl ⟨h1, by omega, h3, h4.1, h4.2⟩

theorem getRPCMethodsOfType_ok_mem (tn : String) (ms fns : List Method)
    (m : Method) (hok : getRPCMethodsOfType tn ms = .ok fns) :
    m ∈ fns ↔ m ∈ ms ∧ suitableMethodSpec m := by
  simp only [getRPCMethodsOfType] at hok
  split at hok
  · cases hok
  · injection hok with hok
    subst hok
    simp [List.mem_filter, methodSuitable_iff]

theorem mapLookup_foldl_insert_isSome (name : String) (fns : List Method)
    (acc : FuncMap Method) (target : String)
    (h : (mapLookup acc target).isSome = true ∨
      ∃ fn ∈ fns, name ++ "." ++ fn.Name = target) :
    (mapLookup
      (fns.foldl (fun a fn => mapInsert a (name ++ "." ++ fn.Name) fn) acc)
      target).isSome = true := by
  induction fns generalizing acc with
  | nil =>
    rcases h with h | ⟨fn, hfn, _⟩
    · exact h
    · cases hfn
  | cons fn rest ih =>
    simp only [List.foldl_cons]
    apply ih
    rcases h with h | ⟨fn1, hfn1, htar⟩
    · left
      rw [mapLookup_mapInsert]
      split_ifs with ht
      · rfl
      · exact h
    · rcases List.mem_cons.mp hfn1 with h1 | h1
      · left
        subst h1
        rw [mapLookup_mapInsert, if_pos htar.symm]
        rfl
      · right
        exact ⟨fn1, h1, htar⟩

/-- Claim C9: registration keeps exactly the exported methods with at
least two declared parameters beyond the receiver, a pointer second
such parameter, and exactly one error result; when nothing qualifies it
returns the no-suitable-methods error; a qualifying method of a
registered object is reachable under the key SERVICE.METHOD, where
SERVICE defaults to the dereferenced type name when no name is given;
and re-registering an existing key silently overwrites the previous
entry. -/
theorem C9_register_rules (tn sn k : String) (ms fns : List Method)
    (r r1 : FuncMap Method) (obj : Object) (m v : Method) :
    (getRPCMethodsOfType tn ms = .ok fns →
      (m ∈ fns ↔ m ∈ ms ∧ suitableMethodSpec m)) ∧
    ((∀ m0 ∈ ms, ¬ suitableMethodSpec m0) →
      getRPCMethodsOfType tn ms =
        .error ("birpc.RegisterService: type " ++ tn ++
          " has no exported methods of suitable type")) ∧
    (RegisterServiceWithName r obj sn = .ok r1 → m ∈ obj.methods →
      suitableMethodSpec m →
      (mapLookup r1
        ((if sn = "" then obj.typeName else sn) ++ "." ++ m.Name)).isSome =
        true) ∧
    mapLookup (mapInsert r k v) k = some v := by
  refine ⟨getRPCMethodsOfType_ok_mem tn ms fns m, ?_, ?_, ?_⟩
  · intro hall
    have hnil : ms.filter methodSuitable = [] := by
      rw [List.filter_eq_nil_iff]
      intro a ha hs
      exact hall a ha ((methodSuitable_iff a).mp hs)
    simp only [getRPCMethodsOfType, hnil]
    rfl
  · intro hok hmem hsuit
    unfold RegisterServiceWithName at hok
    cases hg : getRPCMethodsOfType obj.typeName obj.methods with
    | error e =>
      rw [hg] at hok
      cases hok
    | ok fns0 =>
      rw [hg] at hok
      injection hok with hok
      subst hok
      apply mapLookup_foldl_insert_isSome
      right
      refine ⟨m, ?_, rfl⟩
      exact (getRPCMethodsOfType_ok_mem obj.typeName obj.methods fns0 m hg).mpr
        ⟨hmem, hsuit⟩
  · rw [mapLookup_mapInsert]
    simp

/-- Witness for C9 at a concrete receiver with one suitable and one
unexported method, a concrete all-unsuitable receiver, and a concrete
overwriting insert. -/
theorem C9_register_rules_witness :
    ((⟨"Len", "", 3, true, 1, true⟩ : Method) ∈
        [(⟨"Len", "", 3, true, 1, true⟩ : Method)] ↔
      (⟨"Len", "", 3, true, 1, true⟩ : Method) ∈
        [(⟨"Len", "", 3, true, 1, true⟩ : Method),
         ⟨"hidden", "internal/pkg", 3, true, 1, true⟩] ∧
      suitableMethodSpec ⟨"Len", "", 3, true, 1, true⟩) ∧
    getRPCMethodsOfType "Empty" [⟨"hidden", "internal/pkg", 3, true, 1, true⟩] =
      .error ("birpc.RegisterService: type " ++ "Empty" ++
        " has no exported methods of suitable type") ∧
    (mapLookup [("WordLength.Len", (⟨"Len", "", 3, true, 1, true⟩ : Method))]
      ((if ("" : String) = "" then "WordLength" else "") ++ "." ++ "Len")).isSome =
      true ∧
    mapLookup
      (mapInsert [("WordLength.Len", (⟨"hidden", "internal/pkg", 3, true, 1, true⟩ : Method))]
        "WordLength.Len" ⟨"Len", "", 3, true, 1, true⟩)
      "WordLength.Len" = some ⟨"Len", "", 3, true, 1, true⟩ :=
  ⟨(C9_register_rules "WordLength" "" "WordLength.Len"
      [⟨"Len", "", 3, true, 1, true⟩, ⟨"hidden", "internal/pkg", 3, true, 1, true⟩]
      [⟨"Len", "", 3, true, 1, true⟩] [] [("WordLength.Len", ⟨"Len", "", 3, true, 1, true⟩)]
      ⟨"WordLength", [⟨"Len", "", 3, true, 1, true⟩,
        ⟨"hidden", "internal/pkg", 3, true, 1, true⟩]⟩
      ⟨"Len", "", 3, true, 1, true⟩ ⟨"Len", "", 3, true, 1, true⟩).1 rfl,
   (C9_register_rules "Empty" "" "k"
      [⟨"hidden", "internal/pkg", 3, true, 1, true⟩] [] [] []
      ⟨"Empty", []⟩ ⟨"Len", "", 3, true, 1, true⟩ ⟨"Len", "", 3, true, 1, true⟩).2.1
     (by
       intro m0 hm0
       have h := List.mem_singleton.mp hm0
       subst h
       intro hs
       exact absurd hs.1 (by decide)),
   (C9_register_rules "X" "" "k" [] []
      [] [("WordLength.Len", ⟨"Len", "", 3, true, 1, true⟩)]
      ⟨"WordLength", [⟨"Len", "", 3, true, 1, true⟩,
        ⟨"hidden", "internal/pkg", 3, true, 1, true⟩]⟩
      ⟨"Len", "", 3, true, 1, true⟩ ⟨"Len", "", 3, true, 1, true⟩).2.2.1
     rfl (by decide) ⟨rfl, by decide, rfl, rfl, rfl⟩,
   (C9_register_rules "X" "" "WordLength.Len" [] []
      [("WordLength.Len", ⟨"hidden", "internal/pkg", 3, true, 1, true⟩)] []
      ⟨"X", []⟩ ⟨"Len", "", 3, true, 1, true⟩ ⟨"Len", "", 3, true, 1, true⟩).2.2.2⟩

/-- Claim C10: the writer task spawned by `Go` discards the write
result: after any number of write attempts — all failing included — the
client state is exactly the post-`Go` state, the pending entry is still
installed, no error has been recorded on the call, and the call has not
been signalled, so a `Call` (which returns only once the call is
signalled) on a dead transport never returns. -/
theorem C10_write_error_discarded (st : ClientState) (c : Call) (f : String)
    (a : Option Payload) (attempts : List Bool)
    (hdone : c.done = false) (herr : c.CallError = none) :
    runWriteAttempts (Go st c f a).1 c attempts = ((Go st c f a).1, c) ∧
    pendingLookup (runWriteAttempts (Go st c f a).1 c attempts).1.pending
      (Go st c f a).2.ID = some c ∧
    (runWriteAttempts (Go st c f a).1 c attempts).2.CallError = none ∧
    Call_returned (runWriteAttempts (Go st c f a).1 c attempts).2 = false := by
  have hrw := runWriteAttempts_eq (Go st c f a).1 c attempts
  refine ⟨hrw, ?_, ?_, ?_⟩
  · rw [hrw]
    simp only [Go]
    exact pendingLookup_pendingInsert_self _ _ _
  · rw [hrw]
    exact herr
  · rw [hrw]
    simpa [Call_returned] using hdone

/-- Witness for C10: a fresh call issued on an empty endpoint followed
by three failing write attempts. -/
theorem C10_write_error_discarded_witness :
    runWriteAttempts (Go ⟨0, []⟩ ⟨1, true, none, false⟩ "Svc.M" none).1
        ⟨1, true, none, false⟩ [false, false, false] =
      ((Go ⟨0, []⟩ ⟨1, true, none, false⟩ "Svc.M" none).1,
        ⟨1, true, none, false⟩) ∧
    pendingLookup
      (runWriteAttempts (Go ⟨0, []⟩ ⟨1, true, none, false⟩ "Svc.M" none).1
        ⟨1, true, none, false⟩ [false, false, false]).1.pending
      (Go ⟨0, []⟩ ⟨1, true, none, false⟩ "Svc.M" none).2.ID =
      some ⟨1, true, none, false⟩ ∧
    (runWriteAttempts (Go ⟨0, []⟩ ⟨1, true, none, false⟩ "Svc.M" none).1
      ⟨1, true, none, false⟩ [false, false, false]).2.CallError = none ∧
    Call_returned
      (runWriteAttempts (Go ⟨0, []⟩ ⟨1, true, none, false⟩ "Svc.M" none).1
        ⟨1, true, none, false⟩ [false, false, false]).2 = false :=
  C10_write_error_discarded ⟨0, []⟩ ⟨1, true, none, false⟩ "Svc.M" none
    [false, false, false] rfl rfl

end Birpc
